import Mathlib

/-!
Shallow embedding of the resonant-planet backend core, verified against its
natural-language specification.

Source files embedded:
- `backend/core/cache.py` (class `LRUCache`): an access-ordered bounded
  key-value store built on Python's `OrderedDict`, with hit/miss counters.
- `backend/api/routes/status.py` and `backend/api/routes/results.py`:
  the job status and results endpoints.
- `backend/physics/modulus_api_adapter.py`: the external compute gateway
  with timeout/transport-error fallbacks.

Modelling conventions: Python dict values that may be `None` are `Option`;
Python floats are embedded as rationals `ℚ` (no claim here depends on
rounding); a Python function that can raise is `Except`-valued, with the
error string naming the Python exception; an `OrderedDict` is a list of
key-value pairs, front = oldest (least recently used), back = most recently
used, matching `move_to_end`/`next(iter(...))` semantics.
-/

namespace ResonantPlanet

/-! Embedding of `backend/core/cache.py`, class `LRUCache`. -/

/-- State of `LRUCache`: `entries` embeds the `OrderedDict` (front = oldest,
back = most recently used), plus `maxsize` and the two counters. -/
structure LRUCache (α : Type) where
  entries : List (String × α)
  maxsize : Nat
  hits : Nat
  misses : Nat
deriving Repr, DecidableEq

/-- Constructor `LRUCache.__init__`: empty ordered dict, zero counters
(the Python default for `maxsize` is 128; here it is passed explicitly). -/
def LRUCache.init (α : Type) (maxsize : Nat) : LRUCache α :=
  { entries := [], maxsize := maxsize, hits := 0, misses := 0 }

/-- Python `key in self.cache`. -/
def LRUCache.containsKey (c : LRUCache α) (k : String) : Bool :=
  c.entries.any (fun p => p.1 == k)

/-- Python dict lookup `self.cache[key]` as an option (the `OrderedDict`
keeps keys unique, so the first match is the only one). -/
def LRUCache.lookupVal (c : LRUCache α) (k : String) : Option α :=
  (c.entries.find? (fun p => p.1 == k)).map (fun p => p.2)

/-- `LRUCache.get`: on hit, increment `hits`, `move_to_end(key)` and return
the stored value; on miss, increment `misses` and return nothing.
`move_to_end` is: delete the key's binding, re-append it at the back. -/
def LRUCache.get (c : LRUCache α) (k : String) : Option α × LRUCache α :=
  match c.entries.find? (fun p => p.1 == k) with
  | some p =>
    (some p.2,
     { c with hits := c.hits + 1,
              entries := c.entries.filter (fun q => q.1 != k) ++ [p] })
  | none => (none, { c with misses := c.misses + 1 })

/-- `LRUCache.put`: if the key exists, `move_to_end` then overwrite its
value; if the key is new and `len(self.cache) >= self.maxsize`, evict the
oldest entry `next(iter(self.cache))` first — on an empty dict that Python
expression raises `StopIteration`, embedded as the error case. Finally
`self.cache[key] = value` appends the binding at the back. -/
def LRUCache.put (c : LRUCache α) (k : String) (v : α) :
    Except String (LRUCache α) :=
  if c.containsKey k then
    .ok { c with entries := c.entries.filter (fun q => q.1 != k) ++ [(k, v)] }
  else if c.maxsize ≤ c.entries.length then
    match c.entries with
    | [] => .error "StopIteration"
    | _ :: rest => .ok { c with entries := rest ++ [(k, v)] }
  else
    .ok { c with entries := c.entries ++ [(k, v)] }

/-- `LRUCache.clear`: empty the dict and reset both counters. -/
def LRUCache.clear (c : LRUCache α) : LRUCache α :=
  { c with entries := [], hits := 0, misses := 0 }

/-- Return value of `LRUCache.stats()`. -/
structure CacheStats where
  size : Nat
  maxsize : Nat
  hits : Nat
  misses : Nat
  hit_rate : ℚ
  usage_pct : ℚ
deriving Repr, DecidableEq

/-- `LRUCache.stats`: `hit_rate` is guarded by `total_requests > 0`, but
`usage_pct = len(self.cache) / self.maxsize * 100` is not: with
`maxsize = 0` Python raises `ZeroDivisionError`, embedded as the error
case. `stats` reads the state and mutates nothing. -/
def LRUCache.stats (c : LRUCache α) : Except String CacheStats :=
  let total_requests := c.hits + c.misses
  let hit_rate : ℚ := if 0 < total_requests then (c.hits : ℚ) / (total_requests : ℚ) else 0
  if c.maxsize = 0 then
    .error "ZeroDivisionError"
  else
    .ok { size := c.entries.length, maxsize := c.maxsize,
          hits := c.hits, misses := c.misses,
          hit_rate := hit_rate,
          usage_pct := (c.entries.length : ℚ) / (c.maxsize : ℚ) * 100 }

/-- A call against the cache API, for stating trace properties. -/
inductive CacheOp (α : Type) where
  | get (k : String)
  | put (k : String) (v : α)
  | clear
  | stats
deriving Repr

/-- Run a sequence of cache calls, propagating the first raised Python
exception (the `stats` case discards the returned statistics, keeping the
state unchanged, as the Python method mutates nothing). -/
def runOps (c : LRUCache α) : List (CacheOp α) → Except String (LRUCache α)
  | [] => .ok c
  | op :: ops =>
    match op with
    | .get k => runOps (c.get k).2 ops
    | .put k v =>
      match c.put k v with
      | .ok c' => runOps c' ops
      | .error e => .error e
    | .clear => runOps c.clear ops
    | .stats =>
      match c.stats with
      | .ok _ => runOps c ops
      | .error e => .error e

/-! Embedding of the job endpoints, `backend/api/routes/status.py` and
`backend/api/routes/results.py`. The job store (`core/jobs.py`) and the
response schemas (`core/schemas.py`) are not among the available sources;
their shapes are modelled from the spec. -/

/-- Modelled from the spec: the `Job` record of spec section 3 (the module
`core/jobs.py` that defines the store is not among the available sources).
Field names follow the dictionary keys the two endpoints read:
`job_id`, `status`, `progress`, `stage`, `message`; `message` is the
human-readable status/error text, set on failure. -/
structure JobRecord where
  job_id : String
  status : String
  progress : ℚ
  stage : String
  message : String
deriving Repr, DecidableEq

/-- Modelled from the spec: the `Candidate` record of spec section 3, with
the disposition field `rl_action` the results endpoint counts, plus the
physical parameters (only `rl_action` is examined by the embedded code). -/
structure Candidate where
  candidate_id : String
  period_days : ℚ
  depth_ppm : ℚ
  duration_hours : ℚ
  snr : ℚ
  rl_action : String
deriving Repr, DecidableEq

/-- Modelled from the spec: the job store interface used by the endpoints,
`get_job` (lookup by identifier, nothing when unknown) and
`get_candidates` (the job's stored candidate list). -/
structure JobStore where
  get_job : String → Option JobRecord
  get_candidates : String → List Candidate

/-- FastAPI `HTTPException(status_code, detail)` as raised by the routes. -/
structure HTTPError where
  status_code : Nat
  detail : String
deriving Repr, DecidableEq

/-- Response model of the status endpoint (`JobStatus` in `core/schemas.py`,
fields as constructed by `get_status`). -/
structure JobStatus where
  job_id : String
  status : String
  progress_pct : ℚ
  current_step : String
  error : Option String
deriving Repr, DecidableEq

/-- `get_status` from `backend/api/routes/status.py`: look the job up; on a
missing job raise 404 "Job not found"; otherwise build the `JobStatus`
response with `error = message` when the job has failed, `None` otherwise. -/
def getStatus (store : JobStore) (jobId : String) : Except HTTPError JobStatus :=
  match store.get_job jobId with
  | none => .error { status_code := 404, detail := "Job not found" }
  | some job =>
    .ok { job_id := job.job_id, status := job.status,
          progress_pct := job.progress, current_step := job.stage,
          error := if job.status = "failed" then some job.message else none }

/-- Response model of the results endpoint (`ResultsResponse`). -/
structure ResultsResponse where
  job_id : String
  candidates : List Candidate
  total_candidates : Nat
  accepted_count : Nat
  rejected_count : Nat
  human_review_count : Nat
  message : String
deriving Repr, DecidableEq

/-- `get_results` from `backend/api/routes/results.py`: look the job up; on
a missing job raise 404 "Job not found"; otherwise fetch the candidate
list and count each `rl_action` value. -/
def getResults (store : JobStore) (jobId : String) : Except HTTPError ResultsResponse :=
  match store.get_job jobId with
  | none => .error { status_code := 404, detail := "Job not found" }
  | some _ =>
    let cs := store.get_candidates jobId
    .ok { job_id := jobId, candidates := cs,
          total_candidates := cs.length,
          accepted_count := (cs.filter (fun c => c.rl_action == "accept")).length,
          rejected_count := (cs.filter (fun c => c.rl_action == "reject")).length,
          human_review_count := (cs.filter (fun c => c.rl_action == "human_review")).length,
          message := "Found " ++ toString cs.length ++ " candidates" }

/-! Embedding of `backend/physics/modulus_api_adapter.py`. The network call
itself is abstracted as a `RemoteOutcome` input: the remote service either
answered (`ok`), timed out (`requests.exceptions.Timeout`), failed in
transport (`requests.exceptions.RequestException`, message `e`), or some
other exception escaped (`Exception`, message `e`). The adapter functions
are total: every outcome, including the exceptional ones, is mapped to an
ordinary returned dictionary, never re-raised. -/

/-- Outcome of the HTTP request to the Modulus service. -/
inductive RemoteOutcome (ρ : Type) where
  | ok (result : ρ)
  | timeout
  | requestError (e : String)
  | otherError (e : String)
deriving Repr, DecidableEq

/-- Result dictionary of `fit_transit` (field set as produced by
`_mock_fit_result`; a genuine API response carries the same fields). -/
structure FitResult where
  period_days : ℚ
  t0_bjd : ℚ
  depth_ppm : ℚ
  duration_hours : ℚ
  impact_parameter : ℚ
  limb_darkening : ℚ × ℚ
  snr : ℚ
  log_likelihood : ℚ
  chi2 : ℚ
  success : Bool
  message : String
deriving Repr, DecidableEq

/-- `np.median` over the embedded rationals: middle of the sorted data, or
the mean of the two middles (numpy's NaN on empty input is outside `ℚ`;
no claim depends on that case, embedded here as 0). -/
def npMedian (l : List ℚ) : ℚ :=
  let s := l.mergeSort (fun a b => a ≤ b)
  let n := s.length
  if n = 0 then 0
  else if n % 2 = 1 then s.getD (n / 2) 0
  else (s.getD (n / 2 - 1) 0 + s.getD (n / 2) 0) / 2

/-- `_mock_fit_result(time, message)`: the fallback fit dictionary, with
`success=False` and the diagnostic `message` embedded. -/
def mockFitResult (time : List ℚ) (message : String) : FitResult :=
  { period_days := 3.14, t0_bjd := npMedian time, depth_ppm := 1000,
    duration_hours := 2.5, impact_parameter := 0.3,
    limb_darkening := (0.3, 0.2), snr := 10, log_likelihood := -100,
    chi2 := 1.1, success := false, message := message }

/-- `fit_transit(time, flux, flux_err)`: on a successful request return the
service's JSON verbatim; on `Timeout` fall back with message
"API timeout"; on `RequestException e` with "API error: " + e; on any
other exception with "Error: " + e. -/
def fitTransit (time _flux : List ℚ) (_fluxErr : Option (List ℚ))
    (remote : RemoteOutcome FitResult) : FitResult :=
  match remote with
  | .ok r => r
  | .timeout => mockFitResult time "API timeout"
  | .requestError e => mockFitResult time ("API error: " ++ e)
  | .otherError e => mockFitResult time ("Error: " ++ e)

/-- Result dictionary of `run_checks` (field set as produced by
`_mock_checks_result`; a genuine API response carries the same fields).
Note it has no `success` or `message` field. -/
structure ChecksResult where
  odd_even_depth_delta_pct : ℚ
  secondary_eclipse_snr : ℚ
  v_vs_u_shape_score : ℚ
  centroid_shift_proxy : Option ℚ
  stellar_density_consistent : Bool
deriving Repr, DecidableEq

/-- `_mock_checks_result()`: the fixed fallback checks dictionary. -/
def mockChecksResult : ChecksResult :=
  { odd_even_depth_delta_pct := 2.5, secondary_eclipse_snr := 1.2,
    v_vs_u_shape_score := 0.85, centroid_shift_proxy := none,
    stellar_density_consistent := true }

/-- `run_checks(time, flux, period_days, t0_bjd)`: on a successful request
return the service's JSON verbatim; on `Timeout`, `RequestException` or
any other exception return `_mock_checks_result()` (discarding the error
message). -/
def runChecks (_time _flux : List ℚ) (_period_days _t0_bjd : ℚ)
    (remote : RemoteOutcome ChecksResult) : ChecksResult :=
  match remote with
  | .ok r => r
  | .timeout => mockChecksResult
  | .requestError _ => mockChecksResult
  | .otherError _ => mockChecksResult

/-- Number of `get` calls issued since the most recent `clear` (or since
construction when no `clear` occurs), the span over which the hit/miss
counters accumulate. -/
def getsSinceLastClear (ops : List (CacheOp α)) : Nat :=
  ops.foldl
    (fun n op =>
      match op with
      | .get _ => n + 1
      | .clear => 0
      | _ => n) 0

/-! Concrete sample data used by witnesses. -/

/-- Sample cache over `Nat` values holding two entries. -/
def sampleCache : LRUCache Nat :=
  { entries := [("a", 1), ("b", 2)], maxsize := 2, hits := 0, misses := 0 }

/-- Sample cache over optional values in which key "a" stores Python's
`None`. -/
def sampleCacheNone : LRUCache (Option Nat) :=
  { entries := [("a", none)], maxsize := 2, hits := 0, misses := 0 }

/-- Sample candidate with a given disposition. -/
def sampleCandidate (a : String) : Candidate :=
  { candidate_id := "c", period_days := 1, depth_ppm := 1,
    duration_hours := 1, snr := 1, rl_action := a }

/-- Sample completed job record. -/
def sampleJobCompleted : JobRecord :=
  { job_id := "j1", status := "completed", progress := 100,
    stage := "completed", message := "ok" }

/-- Sample failed job record. -/
def sampleJobFailed : JobRecord :=
  { job_id := "j1", status := "failed", progress := 40,
    stage := "preprocessing", message := "boom" }

/-- Sample store holding one completed job with three candidates, one of
each disposition. -/
def sampleStoreCompleted : JobStore :=
  { get_job := fun _ => some sampleJobCompleted,
    get_candidates := fun _ =>
      [sampleCandidate "accept", sampleCandidate "reject",
       sampleCandidate "human_review"] }

/-- Sample store holding one failed job. -/
def sampleStoreFailed : JobStore :=
  { get_job := fun i => if i = "j1" then some sampleJobFailed else none,
    get_candidates := fun _ => [] }

/-- Sample empty store. -/
def sampleStoreEmpty : JobStore :=
  { get_job := fun _ => none, get_candidates := fun _ => [] }

/-! Theorems. -/

/-- Counting helper: when every candidate's disposition is one of the three
values, the three disposition counts partition the list. -/
theorem disposition_counts_partition (l : List Candidate)
    (h : ∀ c ∈ l, c.rl_action = "accept" ∨ c.rl_action = "reject"
      ∨ c.rl_action = "human_review") :
    (l.filter (fun c => c.rl_action == "accept")).length
      + (l.filter (fun c => c.rl_action == "reject")).length
      + (l.filter (fun c => c.rl_action == "human_review")).length
      = l.length := by
  induction l with
  | nil => simp
  | cons a t ih =>
    have ha := h a (List.mem_cons_self a t)
    have ht := ih (fun c hc => h c (List.mem_cons_of_mem a hc))
    have e1 : (("accept" : String) = "reject") = False := by simp
    have e2 : (("accept" : String) = "human_review") = False := by simp
    have e3 : (("reject" : String) = "accept") = False := by simp
    have e4 : (("reject" : String) = "human_review") = False := by simp
    have e5 : (("human_review" : String) = "accept") = False := by simp
    have e6 : (("human_review" : String) = "reject") = False := by simp
    rcases ha with h1 | h1 | h1 <;>
      simp only [List.filter_cons, h1, beq_iff_eq, e1, e2, e3, e4, e5, e6,
        if_true, if_false, eq_self_iff_true, List.length_cons] <;>
      omega

/-- C2: for every job in the store whose candidates all carry an
`rl_action` in {accept, reject, human_review}, the results response
satisfies `accepted_count + rejected_count + human_review_count =
total_candidates`, and `total_candidates` is the length of the returned
candidate list. -/
theorem c2_results_counts_partition (store : JobStore) (jobId : String)
    (resp : ResultsResponse) (hok : getResults store jobId = .ok resp)
    (hdisp : ∀ c ∈ resp.candidates, c.rl_action = "accept"
      ∨ c.rl_action = "reject" ∨ c.rl_action = "human_review") :
    resp.accepted_count + resp.rejected_count + resp.human_review_count
      = resp.total_candidates
    ∧ resp.total_candidates = resp.candidates.length := by
  unfold getResults at hok
  cases hj : store.get_job jobId with
  | none => rw [hj] at hok; cases hok
  | some job =>
    rw [hj] at hok
    cases hok
    exact ⟨disposition_counts_partition _ hdisp, rfl⟩

/-- Witness for C2 at `sampleStoreCompleted`: one candidate of each
disposition, counts 1 + 1 + 1 = 3. -/
theorem c2_results_counts_partition_witness :
    (1 : Nat) + 1 + 1 = 3 := by
  have h := (c2_results_counts_partition sampleStoreCompleted "j1"
    { job_id := "j1",
      candidates := [sampleCandidate "accept", sampleCandidate "reject",
        sampleCandidate "human_review"],
      total_candidates := 3, accepted_count := 1, rejected_count := 1,
      human_review_count := 1, message := "Found 3 candidates" }
    rfl
    (by
      intro c hc
      simp only [List.mem_cons, List.not_mem_nil, or_false] at hc
      rcases hc with rfl | rfl | rfl
      · exact Or.inl rfl
      · exact Or.inr (Or.inl rfl)
      · exact Or.inr (Or.inr rfl))).1
  exact h

/-- C3: `fit_transit` maps a timeout or transport failure of the remote
call (and any other escaped exception) to the fallback dictionary rather
than propagating it: the result has `success = false` and its `message` is
the diagnostic describing the failure. Totality — that no exception
escapes — is the totality of the embedded function itself. -/
theorem c3_fit_transit_fallback (time flux : List ℚ) (fluxErr : Option (List ℚ)) :
    ((fitTransit time flux fluxErr .timeout).success = false
      ∧ (fitTransit time flux fluxErr .timeout).message = "API timeout")
    ∧ (∀ e, (fitTransit time flux fluxErr (.requestError e)).success = false
      ∧ (fitTransit time flux fluxErr (.requestError e)).message = "API error: " ++ e)
    ∧ (∀ e, (fitTransit time flux fluxErr (.otherError e)).success = false
      ∧ (fitTransit time flux fluxErr (.otherError e)).message = "Error: " ++ e) :=
  ⟨⟨rfl, rfl⟩, fun _ => ⟨rfl, rfl⟩, fun _ => ⟨rfl, rfl⟩⟩

/-- C4 counterexample: the fallback `run_checks` returns on a timeout is
byte-for-byte equal to what it returns when the remote service genuinely
answers with those same values — the fallback carries no `success` or
degraded flag (the `ChecksResult` field set has none), so it is not
distinguishable from a genuine success, contradicting the claim. -/
theorem c4_fallback_indistinguishable_counterexample :
    runChecks [] [] 1 0 .timeout = runChecks [] [] 1 0 (.ok mockChecksResult)
    ∧ runChecks [] [] 1 0 .timeout = mockChecksResult := ⟨rfl, rfl⟩

/-- C4 (amended): on timeout or transport error (or any other escaped
exception) `run_checks` does not propagate the exception but returns the
fixed fallback dictionary `_mock_checks_result()`; the fallback is
structurally valid but carries no degraded/success flag, so it is not
distinguishable from a genuine success with the same values. -/
theorem c4_run_checks_fallback (time flux : List ℚ) (period t0 : ℚ) :
    runChecks time flux period t0 .timeout = mockChecksResult
    ∧ (∀ e, runChecks time flux period t0 (.requestError e) = mockChecksResult)
    ∧ (∀ e, runChecks time flux period t0 (.otherError e) = mockChecksResult) :=
  ⟨rfl, fun _ => rfl, fun _ => rfl⟩

/-- C6: for a job known to the store, the status response carries the five
fields built from the job record, and `error` is the job's message exactly
when the job's status is "failed", `None` otherwise. -/
theorem c6_status_error_iff_failed (store : JobStore) (jobId : String)
    (js : JobStatus) (h : getStatus store jobId = .ok js) :
    (∃ job, store.get_job jobId = some job ∧ js.job_id = job.job_id
      ∧ js.status = job.status ∧ js.progress_pct = job.progress
      ∧ js.current_step = job.stage)
    ∧ (js.status = "failed" →
        ∃ job, store.get_job jobId = some job ∧ js.error = some job.message)
    ∧ (js.status ≠ "failed" → js.error = none) := by
  unfold getStatus at h
  cases hj : store.get_job jobId with
  | none => rw [hj] at h; cases h
  | some job =>
    rw [hj] at h
    cases h
    refine ⟨⟨job, rfl, rfl, rfl, rfl, rfl⟩, fun hf => ⟨job, rfl, ?_⟩, fun hf => ?_⟩
    · have hf' : job.status = "failed" := hf
      simp only [hf', if_pos]
    · have hf' : ¬ job.status = "failed" := hf
      simp only [if_neg hf']

/-- Witness for C6 at `sampleStoreFailed`: the failed job's status
response carries its message as the error. -/
theorem c6_status_error_iff_failed_witness :
    ∃ j, sampleStoreFailed.get_job "j1" = some j
      ∧ (some "boom" : Option String) = some j.message :=
  (c6_status_error_iff_failed sampleStoreFailed "j1"
    { job_id := "j1", status := "failed", progress_pct := 40,
      current_step := "preprocessing", error := some "boom" }
    rfl).2.1 rfl

/-- C7: neither endpoint fabricates data for an unknown job identifier:
both raise HTTP 404 with detail "Job not found". -/
theorem c7_unknown_job_404 (store : JobStore) (jobId : String)
    (h : store.get_job jobId = none) :
    getStatus store jobId = .error { status_code := 404, detail := "Job not found" }
    ∧ getResults store jobId = .error { status_code := 404, detail := "Job not found" } := by
  unfold getStatus getResults
  rw [h]
  exact ⟨rfl, rfl⟩

/-- Witness for C7 at the empty store. -/
theorem c7_unknown_job_404_witness :
    getStatus sampleStoreEmpty "missing"
      = .error { status_code := 404, detail := "Job not found" }
    ∧ getResults sampleStoreEmpty "missing"
      = .error { status_code := 404, detail := "Job not found" } :=
  c7_unknown_job_404 sampleStoreEmpty "missing" rfl

/-! Helper lemmas about the cache operations. -/

/-- Filtering out an element of the list that fails the predicate strictly
shrinks it. -/
theorem length_filter_lt_of_mem {α : Type} {p : α → Bool} {a : α} :
    ∀ {l : List α}, a ∈ l → p a = false → (l.filter p).length < l.length := by
  intro l ha hpa
  induction l with
  | nil => cases ha
  | cons b t ih =>
    rcases List.mem_cons.mp ha with rfl | hat
    · rw [List.filter_cons_of_neg (by simp [hpa])]
      exact Nat.lt_succ_of_le (List.length_filter_le p t)
    · cases hb : p b with
      | true =>
        rw [List.filter_cons_of_pos hb]
        exact Nat.succ_lt_succ (ih hat)
      | false =>
        rw [List.filter_cons_of_neg (by simp [hb])]
        exact Nat.lt_succ_of_lt (ih hat)

/-- What a successful `put` guarantees: `maxsize` and both counters are
unchanged, and the entry count stays within `maxsize` when it was within
`maxsize` before. -/
theorem put_ok_spec {α : Type} {c : LRUCache α} {k : String} {v : α}
    {c' : LRUCache α} (h : c.put k v = .ok c') :
    c'.maxsize = c.maxsize ∧ c'.hits = c.hits ∧ c'.misses = c.misses
    ∧ (c.entries.length ≤ c.maxsize → c'.entries.length ≤ c.maxsize) := by
  unfold LRUCache.put at h
  split at h
  · rename_i hc
    simp only [Except.ok.injEq] at h
    subst h
    refine ⟨rfl, rfl, rfl, fun hle => ?_⟩
    obtain ⟨p, hp, hpk⟩ := List.any_eq_true.mp hc
    have hlt := length_filter_lt_of_mem (p := fun q => q.1 != k) hp (by simp_all)
    simp only [List.length_append, List.length_cons, List.length_nil]
    omega
  · rename_i hc
    split at h
    · rename_i hlen
      split at h
      · exact Except.noConfusion h
      · rename_i p rest he
        simp only [Except.ok.injEq] at h
        subst h
        refine ⟨rfl, rfl, rfl, fun hle => ?_⟩
        have := congrArg List.length he
        simp only [List.length_cons] at this
        simp only [List.length_append, List.length_cons, List.length_nil]
        omega
    · rename_i hlen
      simp only [Except.ok.injEq] at h
      subst h
      refine ⟨rfl, rfl, rfl, fun hle => ?_⟩
      simp only [List.length_append, List.length_cons, List.length_nil]
      omega

/-- Boolean helper: a key that matches positively fails the negated
filter predicate. -/
theorem bne_eq_false_of_beq {α : Type} [BEq α] {a b : α}
    (h : (a == b) = true) : (a != b) = false := by
  simp [bne, h]

/-- Equation for `get` on a miss. -/
theorem get_eq_miss {α : Type} {c : LRUCache α} {k : String}
    (hf : c.entries.find? (fun q => q.1 == k) = none) :
    c.get k = (none, { c with misses := c.misses + 1 }) := by
  unfold LRUCache.get
  rw [hf]

/-- Equation for `get` on a hit: the found entry moves to the back. -/
theorem get_eq_hit {α : Type} {c : LRUCache α} {k : String} {p : String × α}
    (hf : c.entries.find? (fun q => q.1 == k) = some p) :
    c.get k = (some p.2,
      { c with hits := c.hits + 1,
               entries := c.entries.filter (fun q => q.1 != k) ++ [p] }) := by
  unfold LRUCache.get
  rw [hf]

/-- What a `get` does to the state: `maxsize` is unchanged, the entry count
does not grow, and exactly one of the counters goes up by one. -/
theorem get_snd_spec {α : Type} (c : LRUCache α) (k : String) :
    ((c.get k).2).maxsize = c.maxsize
    ∧ ((c.get k).2).entries.length ≤ c.entries.length
    ∧ ((c.get k).2).hits + ((c.get k).2).misses = c.hits + c.misses + 1 := by
  cases hf : c.entries.find? (fun q => q.1 == k) with
  | none =>
    rw [get_eq_miss hf]
    refine ⟨rfl, Nat.le_refl _, ?_⟩
    show c.hits + (c.misses + 1) = c.hits + c.misses + 1
    omega
  | some p =>
    rw [get_eq_hit hf]
    have hpk : (p.1 == k) = true := by
      have h := List.find?_some hf
      exact h
    have hmem : p ∈ c.entries := List.mem_of_find?_eq_some hf
    have hbne : (p.1 != k) = false := bne_eq_false_of_beq hpk
    have hlt := length_filter_lt_of_mem (p := fun q => q.1 != k) hmem hbne
    refine ⟨rfl, ?_, ?_⟩
    · show (c.entries.filter (fun q => q.1 != k) ++ [p]).length ≤ c.entries.length
      simp only [List.length_append, List.length_cons, List.length_nil]
      omega
    · show (c.hits + 1) + c.misses = c.hits + c.misses + 1
      omega

/-- Invariant carried along any successful run: `maxsize` never changes,
and the entry count stays within `maxsize` once it is. -/
theorem runOps_ok_spec {α : Type} :
    ∀ (ops : List (CacheOp α)) (c c' : LRUCache α),
      runOps c ops = .ok c' →
      c'.maxsize = c.maxsize
      ∧ (c.entries.length ≤ c.maxsize → c'.entries.length ≤ c'.maxsize) := by
  intro ops
  induction ops with
  | nil =>
    intro c c' h
    simp only [runOps, Except.ok.injEq] at h
    subst h
    exact ⟨rfl, fun h => h⟩
  | cons op ops ih =>
    intro c c' h
    cases op with
    | get k =>
      simp only [runOps] at h
      obtain ⟨hm, hl, _⟩ := get_snd_spec c k
      obtain ⟨hm', hl'⟩ := ih (c.get k).2 c' h
      refine ⟨hm'.trans hm, fun hle => hl' ?_⟩
      rw [hm]
      exact Nat.le_trans hl hle
    | put k v =>
      simp only [runOps] at h
      cases hp : c.put k v with
      | error e => rw [hp] at h; exact Except.noConfusion h
      | ok c2 =>
        rw [hp] at h
        obtain ⟨hm, _, _, hlen⟩ := put_ok_spec hp
        obtain ⟨hm', hl'⟩ := ih c2 c' h
        refine ⟨hm'.trans hm, fun hle => hl' ?_⟩
        rw [hm]
        exact hlen hle
    | clear =>
      simp only [runOps] at h
      obtain ⟨hm', hl'⟩ := ih c.clear c' h
      exact ⟨hm', fun _ => hl' (Nat.zero_le _)⟩
    | stats =>
      simp only [runOps] at h
      cases hs : c.stats with
      | error e => rw [hs] at h; exact Except.noConfusion h
      | ok s => rw [hs] at h; exact ih c c' h

/-- Counter accounting along any successful run: the final `hits + misses`
is the fold of the op sequence over the initial total, counting each `get`
and resetting at each `clear`. -/
theorem runOps_counters {α : Type} :
    ∀ (ops : List (CacheOp α)) (c c' : LRUCache α),
      runOps c ops = .ok c' →
      c'.hits + c'.misses
        = ops.foldl
            (fun n op =>
              match op with
              | .get _ => n + 1
              | .clear => 0
              | _ => n) (c.hits + c.misses) := by
  intro ops
  induction ops with
  | nil =>
    intro c c' h
    simp only [runOps, Except.ok.injEq] at h
    subst h
    rfl
  | cons op ops ih =>
    intro c c' h
    cases op with
    | get k =>
      simp only [runOps] at h
      have hsum := (get_snd_spec c k).2.2
      have := ih (c.get k).2 c' h
      simp only [List.foldl_cons]
      rw [this, hsum]
    | put k v =>
      simp only [runOps] at h
      cases hp : c.put k v with
      | error e => rw [hp] at h; exact Except.noConfusion h
      | ok c2 =>
        rw [hp] at h
        obtain ⟨_, hh, hm, _⟩ := put_ok_spec hp
        have := ih c2 c' h
        simp only [List.foldl_cons]
        rw [this, hh, hm]
    | clear =>
      simp only [runOps] at h
      have := ih c.clear c' h
      simp only [List.foldl_cons]
      rw [this]
      rfl
    | stats =>
      simp only [runOps] at h
      cases hs : c.stats with
      | error e => rw [hs] at h; exact Except.noConfusion h
      | ok s =>
        rw [hs] at h
        have := ih c c' h
        simp only [List.foldl_cons]
        rw [this]

/-- A `put` against a cache whose `maxsize` is at least 1 never raises. -/
theorem put_isOk_of_pos_maxsize {α : Type} (c : LRUCache α) (k : String)
    (v : α) (h1 : 1 ≤ c.maxsize) : ∃ c2, c.put k v = .ok c2 := by
  unfold LRUCache.put
  split
  · exact ⟨_, rfl⟩
  · split
    · rename_i hlen
      cases he : c.entries with
      | nil =>
        rw [he] at hlen
        simp only [List.length_nil, Nat.le_zero] at hlen
        omega
      | cons p rest => exact ⟨_, rfl⟩
    · exact ⟨_, rfl⟩

/-- A `stats` call against a cache whose `maxsize` is at least 1 never
raises. -/
theorem stats_isOk_of_pos_maxsize {α : Type} (c : LRUCache α)
    (h1 : 1 ≤ c.maxsize) : ∃ s, c.stats = .ok s := by
  unfold LRUCache.stats
  rw [if_neg (by omega)]
  exact ⟨_, rfl⟩

/-- Any run against a cache whose `maxsize` is at least 1 succeeds. -/
theorem runOps_isOk_of_pos_maxsize {α : Type} :
    ∀ (ops : List (CacheOp α)) (c : LRUCache α), 1 ≤ c.maxsize →
      (runOps c ops).isOk = true := by
  intro ops
  induction ops with
  | nil => intro c h1; rfl
  | cons op ops ih =>
    intro c h1
    cases op with
    | get k =>
      simp only [runOps]
      exact ih (c.get k).2 (by rw [(get_snd_spec c k).1]; exact h1)
    | put k v =>
      obtain ⟨c2, hp⟩ := put_isOk_of_pos_maxsize c k v h1
      simp only [runOps, hp]
      exact ih c2 (by rw [(put_ok_spec hp).1]; exact h1)
    | clear =>
      simp only [runOps]
      exact ih c.clear h1
    | stats =>
      obtain ⟨s, hs⟩ := stats_isOk_of_pos_maxsize c h1
      simp only [runOps, hs]
      exact ih c h1

/-- C1: starting from an empty cache of any capacity `N`, (a) any
successful sequence of operations — in particular any sequence of more
than `N` puts with distinct keys — leaves at most `N` entries; (b) when a
new key is put while the cache is at capacity, exactly the front entry of
the access-ordered dict — the least-recently-accessed key, since both a
`get` hit and a `put` move their key to the back — is evicted, the rest
being retained together with the new binding; (c) concretely, with
`maxsize = 2`, after put A, put B, get A (a hit, refreshing A's recency),
put C, the key B is evicted and A and C remain, with A older than C. -/
theorem c1_bounded_size_and_lru_eviction :
    (∀ (α : Type) (N : Nat) (ops : List (CacheOp α)) (c' : LRUCache α),
        runOps (LRUCache.init α N) ops = .ok c' → c'.entries.length ≤ N)
    ∧ (∀ (α : Type) (c : LRUCache α) (k : String) (v : α) (p : String × α)
        (rest : List (String × α)),
        c.containsKey k = false → c.maxsize ≤ c.entries.length →
        c.entries = p :: rest →
        c.put k v = .ok { c with entries := rest ++ [(k, v)] })
    ∧ runOps (LRUCache.init Nat 2)
        [.put "A" 0, .put "B" 1, .get "A", .put "C" 2]
      = .ok { entries := [("A", 0), ("C", 2)], maxsize := 2, hits := 1,
              misses := 0 } := by
  refine ⟨?_, ?_, ?_⟩
  · intro α N ops c' h
    obtain ⟨hm, hl⟩ := runOps_ok_spec ops (LRUCache.init α N) c' h
    have h0 : (LRUCache.init α N).entries.length ≤ (LRUCache.init α N).maxsize :=
      Nat.zero_le _
    have := hl h0
    rw [hm] at this
    exact this
  · intro α c k v p rest hc hlen he
    unfold LRUCache.put
    rw [if_neg (by simp [hc]), if_pos hlen, he]
  · rfl

/-- Witness for C1's quantified part at the concrete scenario of part (c). -/
theorem c1_bounded_size_and_lru_eviction_witness :
    ({ entries := [("A", 0), ("C", 2)], maxsize := 2, hits := 1,
       misses := 0 } : LRUCache Nat).entries.length ≤ 2 :=
  c1_bounded_size_and_lru_eviction.1 Nat 2
    [.put "A" 0, .put "B" 1, .get "A", .put "C" 2] _ rfl

/-- C5 counterexample: the claim quantifies over every configured
`maxsize`, but with `maxsize = 0` a `put` of a fresh key reaches
`next(iter(self.cache))` on the empty dict and raises `StopIteration`,
and `stats()` divides by `maxsize` and raises `ZeroDivisionError`. -/
theorem c5_cache_ops_total_counterexample :
    (LRUCache.init Nat 0).put "a" 7 = .error "StopIteration"
    ∧ (LRUCache.init Nat 0).stats = .error "ZeroDivisionError" :=
  ⟨rfl, rfl⟩

/-- C5 (amended): for every cache configured with `maxsize ≥ 1` — which
includes the module's own instances (128 default, 100, 50) — every
sequence of `get`, `put`, `clear` and `stats` calls with any arguments
succeeds: no operation raises, and a lookup miss is an ordinary `None`
outcome. (With `maxsize = 0` this fails; see the counterexample.) -/
theorem c5_cache_ops_total_of_pos_maxsize (α : Type) (N : Nat)
    (h1 : 1 ≤ N) (ops : List (CacheOp α)) :
    (runOps (LRUCache.init α N) ops).isOk = true :=
  runOps_isOk_of_pos_maxsize ops (LRUCache.init α N) h1

/-- Witness for C5 at `maxsize = 1` and a run exercising all four
operations. -/
theorem c5_cache_ops_total_of_pos_maxsize_witness :
    (runOps (LRUCache.init Nat 1)
      [.put "a" 0, .get "a", .get "b", .put "b" 1, .stats, .clear,
       .stats]).isOk = true :=
  c5_cache_ops_total_of_pos_maxsize Nat 1 (Nat.le_refl 1)
    [.put "a" 0, .get "a", .get "b", .put "b" 1, .stats, .clear, .stats]

/-- Looking a key up after its entry was moved to the back finds exactly
that entry again. -/
theorem find?_filter_ne_append {α : Type} (l : List (String × α)) (k : String)
    (p : String × α) (hpk : (p.1 == k) = true) :
    (l.filter (fun q => q.1 != k) ++ [p]).find? (fun q => q.1 == k) = some p := by
  rw [List.find?_append]
  have hnone : (l.filter (fun q => q.1 != k)).find? (fun q => q.1 == k) = none := by
    rw [List.find?_eq_none]
    intro x hx
    have hxk := (List.mem_filter.mp hx).2
    simp only [bne_iff_ne] at hxk
    simp [hxk]
  rw [hnone]
  simp [List.find?_cons, hpk]

/-- C8: `get` is idempotent up to counters: a second `get` of the same key
with no intervening `put` leaves the entries — hence the recency order and
the next eviction victim — exactly as after the first `get`, returns the
same value, and the only difference from a single call is that the hit
counter (on a hit) or the miss counter (on a miss) advances by two rather
than one. -/
theorem c8_get_get_idempotent (α : Type) (c : LRUCache α) (k : String) :
    ((c.get k).2.get k).2.entries = (c.get k).2.entries
    ∧ ((c.get k).2.get k).2.maxsize = (c.get k).2.maxsize
    ∧ ((c.get k).2.get k).1 = (c.get k).1
    ∧ ((c.get k).1.isSome = true →
        ((c.get k).2.get k).2.hits = c.hits + 2
        ∧ ((c.get k).2.get k).2.misses = c.misses)
    ∧ ((c.get k).1.isSome = false →
        ((c.get k).2.get k).2.misses = c.misses + 2
        ∧ ((c.get k).2.get k).2.hits = c.hits) := by
  cases hf : c.entries.find? (fun q => q.1 == k) with
  | none =>
    have h1 := get_eq_miss hf
    have hf2 : ({ c with misses := c.misses + 1 } : LRUCache α).entries.find?
        (fun q => q.1 == k) = none := hf
    have h2 := get_eq_miss hf2
    simp only [h1, h2]
    refine ⟨trivial, trivial, trivial, fun hc => by simp at hc,
      fun _ => ⟨trivial, trivial⟩⟩
  | some p =>
    have hpk : (p.1 == k) = true := by
      have hx := List.find?_some hf
      exact hx
    have h1 := get_eq_hit hf
    have hf2 : ((c.entries.filter (fun q => q.1 != k) ++ [p]).find?
        (fun q => q.1 == k)) = some p := find?_filter_ne_append c.entries k p hpk
    have h2 := get_eq_hit
      (c := { c with hits := c.hits + 1,
                     entries := c.entries.filter (fun q => q.1 != k) ++ [p] }) hf2
    have hent : ((c.entries.filter (fun q => q.1 != k) ++ [p]).filter
          (fun q => q.1 != k)) ++ [p]
        = c.entries.filter (fun q => q.1 != k) ++ [p] := by
      rw [List.filter_append, List.filter_filter]
      rw [List.filter_cons_of_neg (by simp [bne_eq_false_of_beq hpk]),
        List.filter_nil, List.append_nil]
      congr 1
      simp [Bool.and_self]
    simp only [h1, h2]
    refine ⟨hent, trivial, trivial, fun _ => ⟨trivial, trivial⟩,
      fun hc => by simp at hc⟩

/-- Witness for C8 at `sampleCache` and the present key "a" (a hit). -/
theorem c8_get_get_idempotent_witness :
    ((sampleCache.get "a").2.get "a").2.entries = (sampleCache.get "a").2.entries
    ∧ ((sampleCache.get "a").2.get "a").2.hits = sampleCache.hits + 2 := by
  have h := c8_get_get_idempotent Nat sampleCache "a"
  exact ⟨h.1, (h.2.2.2.1 rfl).1⟩

/-- C9: a stored Python `None` is indistinguishable from a miss by return
value alone — `get` returns `None` either way — yet internally the lookup
is a hit: the hit counter (not the miss counter) advances and the key
moves to the most-recently-used end with its stored `None`. -/
theorem c9_stored_none_like_miss (β : Type) (c : LRUCache (Option β))
    (k : String) (h : c.lookupVal k = some none) :
    (c.get k).1.join = none
    ∧ (∀ (c' : LRUCache (Option β)) (k' : String),
        c'.lookupVal k' = none → (c'.get k').1.join = none)
    ∧ (c.get k).2.hits = c.hits + 1
    ∧ (c.get k).2.misses = c.misses
    ∧ (c.get k).2.entries
        = c.entries.filter (fun q => q.1 != k) ++ [(k, none)] := by
  unfold LRUCache.lookupVal at h
  cases hf : c.entries.find? (fun q => q.1 == k) with
  | none => rw [hf] at h; simp at h
  | some p =>
    rw [hf] at h
    have hp2 : p.2 = none := by simpa using h
    have hpk : (p.1 == k) = true := by
      have hx := List.find?_some hf
      exact hx
    have hk : p.1 = k := by simpa using hpk
    have hpe : p = (k, none) := by
      cases p
      simp only at hk hp2
      rw [hk, hp2]
    have h1 := get_eq_hit hf
    simp only [h1]
    refine ⟨by simp [hp2], ?_, trivial, trivial, by rw [hpe]⟩
    intro c' k' h'
    unfold LRUCache.lookupVal at h'
    cases hf' : c'.entries.find? (fun q => q.1 == k') with
    | none => rw [get_eq_miss hf']; rfl
    | some q => rw [hf'] at h'; simp at h'

/-- Witness for C9 at `sampleCacheNone`, where key "a" stores `None`. -/
theorem c9_stored_none_like_miss_witness :
    (sampleCacheNone.get "a").1.join = none
    ∧ (sampleCacheNone.get "a").2.hits = sampleCacheNone.hits + 1 := by
  have h := c9_stored_none_like_miss Nat sampleCacheNone "a" rfl
  exact ⟨h.1, h.2.2.1⟩

/-- C10: counter accounting: along any successful run from construction,
`hits + misses` equals the number of `get` calls since the most recent
`clear` (or since construction); a successful `put` modifies neither
counter; a `stats` call leaves the whole state unchanged; `clear` resets
both counters to zero and empties the entries. -/
theorem c10_counter_accounting :
    (∀ (α : Type) (N : Nat) (ops : List (CacheOp α)) (c' : LRUCache α),
        runOps (LRUCache.init α N) ops = .ok c' →
        c'.hits + c'.misses = getsSinceLastClear ops)
    ∧ (∀ (α : Type) (c : LRUCache α) (k : String) (v : α) (c2 : LRUCache α),
        c.put k v = .ok c2 → c2.hits = c.hits ∧ c2.misses = c.misses)
    ∧ (∀ (α : Type) (c c2 : LRUCache α),
        runOps c [CacheOp.stats] = .ok c2 → c2 = c)
    ∧ (∀ (α : Type) (c : LRUCache α),
        c.clear.hits = 0 ∧ c.clear.misses = 0 ∧ c.clear.entries = []) := by
  refine ⟨?_, ?_, ?_, ?_⟩
  · intro α N ops c' h
    have hc := runOps_counters ops (LRUCache.init α N) c' h
    rw [hc]
    rfl
  · intro α c k v c2 hp
    exact ⟨(put_ok_spec hp).2.1, (put_ok_spec hp).2.2.1⟩
  · intro α c c2 h
    simp only [runOps] at h
    cases hs : c.stats with
    | error e => rw [hs] at h; exact Except.noConfusion h
    | ok s =>
      rw [hs] at h
      simp only [runOps, Except.ok.injEq] at h
      exact h.symm
  · intro α c
    exact ⟨rfl, rfl, rfl⟩

/-- Witness for C10's accounting part on a concrete run with one `clear`
and one `get` after it. -/
theorem c10_counter_accounting_witness :
    ({ entries := [], maxsize := 2, hits := 0, misses := 1 } : LRUCache Nat).hits
      + ({ entries := [], maxsize := 2, hits := 0, misses := 1 } : LRUCache Nat).misses
      = getsSinceLastClear
          ([.put "a" 0, .get "a", .get "b", .clear, .get "c"] :
            List (CacheOp Nat)) :=
  c10_counter_accounting.1 Nat 2
    ([.put "a" 0, .get "a", .get "b", .clear, .get "c"] : List (CacheOp Nat))
    _ rfl

end ResonantPlanet
